import Mathlib

/-!
Verification of the benchmark-sweep core (`benchmarks/src/graph.rs`).

The development shallowly embeds the sweep configuration (`GraphParams`),
the per-run override encoder (`GraphRun::as_args`), and the results writer
(`GraphResultsWriter::from_path` / `write_result`).

Modelling conventions:
* Rust `Option<T>` becomes `Option T`; the `unwrap` panics in
  `GraphParams::runs` are modelled by returning `none`.
* Rust `String` ordering (`Ord::cmp`, byte-lexicographic over UTF-8) is
  modelled as lexicographic order on the string's character list; UTF-8
  byte order coincides with code-point order, so the two agree.
* The metric map of `BenchmarkResults` (a hash map, whose iteration order
  is arbitrary) is modelled as an association list considered up to
  permutation, with pairwise-distinct keys.
* `u64` histogram quantities are modelled as `Nat`; the `f64` mean is
  abstracted as its rendered decimal string, and quantile fractions as
  `Rat` tokens fed to an abstract `value_at_quantile` query.
-/

/-- Modelled from the spec: `BenchmarkResults`'s metric samples (defined in
`benchmark.rs`, which is not part of the provided sources) are
histogram-queryable: sample count, minimum, maximum, arithmetic mean, and
value at an arbitrary quantile fraction. The `f64` mean is abstracted as its
rendered decimal string, quantile fractions as abstract `Rat` tokens. -/
structure Histogram where
  len : Nat
  min : Nat
  max : Nat
  mean : String
  value_at_quantile : Rat → Nat

/-- Modelled from the spec: `crate::QUANTILES` (defined outside the provided
sources) is a process-wide, read-only ordered sequence of
(label, quantile-fraction) pairs. The development is parameterised over it. -/
abbrev QuantileSpec := List (String × Rat)

/-- Wrapper around a comma-separated list of values (`CommaSeparatedString`),
represented by its parsed pieces. -/
abbrev CommaSeparatedString := List String

/-- Splitting a character list on `','`, keeping order and empty pieces:
the embedding of Rust's `s.split(',')`. -/
def splitCommaChars : List Char → List (List Char)
  | [] => [[]]
  | c :: cs =>
    if c = ',' then [] :: splitCommaChars cs
    else
      match splitCommaChars cs with
      | [] => [[c]]
      | p :: ps => (c :: p) :: ps

/-- Embedding of `CommaSeparatedString::from_str` (graph.rs lines 17-23):
`Ok(Self(s.split(',').map(Into::into).collect()))`, with `Err = Infallible`,
so the function is total. -/
def CommaSeparatedString.from_str (s : String) : CommaSeparatedString :=
  (splitCommaChars s.data).map String.mk

/-- Joining pieces back with `','`: the specification-side characterisation
of what "splitting on `','`" means (a list of comma-free pieces whose
comma-join is the input). -/
def joinComma : List (List Char) → List Char
  | [] => []
  | [p] => p
  | p :: ps => p ++ ',' :: joinComma ps

/-- Embedding of the `GraphParams` clap struct (graph.rs lines 25-54). -/
structure GraphParams where
  graph : Bool
  x_axis : Option String
  x_values : Option CommaSeparatedString
  x_axis_is_datagen_var : Bool
  graph_results_path : Option String

/-- Embedding of the `GraphRun` struct (graph.rs lines 81-86). -/
structure GraphRun where
  x_axis : String
  x_value : String
  x_axis_is_datagen_var : Bool
  deriving DecidableEq, Repr

/-- Embedding of `GraphParams::runs` (graph.rs lines 62-69). The source
calls `unwrap()` on `x_axis` and `x_values`; the panic is modelled as
`none`. Note the source never reads `self.graph`. -/
def GraphParams.runs (p : GraphParams) : Option (List GraphRun) :=
  match p.x_axis, p.x_values with
  | some ax, some vs =>
    some (vs.map fun v =>
      { x_axis := ax, x_value := v, x_axis_is_datagen_var := p.x_axis_is_datagen_var })
  | _, _ => none

/-- Embedding of the `ArgOverride` enum (graph.rs lines 88-91). The
`serde_json::Value` produced by `json!` is only ever a one-entry object of
strings here, modelled as an association list. -/
inductive ArgOverride where
  | CliArgs (args : List String)
  | Json (fields : List (String × String))
  deriving DecidableEq, Repr

/-- Embedding of `GraphRun::as_args` (graph.rs lines 96-109). -/
def GraphRun.as_args (r : GraphRun) : ArgOverride :=
  if r.x_axis_is_datagen_var then
    ArgOverride.Json [(r.x_axis, r.x_value)]
  else
    ArgOverride.CliArgs ["benchmarks", "--" ++ r.x_axis, r.x_value]

/-- Quoting of a single character inside a quoted CSV field (a `'"'` is
doubled). -/
def quoteChar (c : Char) : List Char :=
  if c = '"' then ['"', '"'] else [c]

/-- Whether a CSV field needs quoting under the csv crate's default
`QuoteStyle::Necessary`: it contains the delimiter, a quote, or a record
terminator character. -/
def needsQuoting (f : String) : Bool :=
  f.data.any fun c => c == ',' || c == '"' || c == '\n' || c == '\r'

/-- Serialisation of one CSV field. -/
def serializeField (f : String) : String :=
  if needsQuoting f then "\"" ++ String.mk (f.data.flatMap quoteChar) ++ "\"" else f

/-- Serialisation of one CSV record: comma-delimited fields and a `'\n'`
terminator, the csv crate's defaults. -/
def serializeRecord (fields : List String) : String :=
  String.intercalate "," (fields.map serializeField) ++ "\n"

/-- Modelled from the spec: the state of the csv crate's `Writer<File>` (an
external dependency of graph.rs). The crate documents an internal buffer
(default capacity 8 KiB): `write_record` appends the serialised record to
that buffer, and data reaches the underlying file only when the buffer
fills, on an explicit `flush`, or when the writer is dropped. `flushed`
holds what has reached the file, `buffer` what has not. -/
structure CsvWriter where
  buffer : String
  flushed : String
  capacity : Nat
  deriving DecidableEq, Repr

/-- Writer state immediately after `csv::WriterBuilder::new().from_path(..)`:
an empty (truncated) file and an empty buffer, with the default 8 KiB
buffer capacity. -/
def freshCsvWriter : CsvWriter :=
  { buffer := "", flushed := "", capacity := 8192 }

/-- Modelled from the spec: `csv::Writer::write_record` appends the
serialised record to the internal buffer; the buffer is written through to
the file only once it reaches capacity. -/
def CsvWriter.write_record (w : CsvWriter) (fields : List String) : CsvWriter :=
  let b := w.buffer ++ serializeRecord fields
  if w.capacity ≤ b.length then { w with buffer := "", flushed := w.flushed ++ b }
  else { w with buffer := b }

/-- Everything handed to the writer so far, flushed or not, in order. -/
def CsvWriter.totalOutput (w : CsvWriter) : String :=
  w.flushed ++ w.buffer

/-- Embedding of the `GraphResultsWriter` enum (graph.rs lines 118-120). -/
inductive GraphResultsWriter where
  | CSV (w : CsvWriter)
  deriving DecidableEq, Repr

/-- Contents of the underlying file for a results writer. -/
def GraphResultsWriter.fileContents : GraphResultsWriter → String
  | .CSV w => w.flushed

/-- Everything handed to a results writer so far, in order. -/
def GraphResultsWriter.output : GraphResultsWriter → String
  | .CSV w => w.totalOutput

/-- Helper splitting a reversed character list at its first `'.'`:
returns the characters before the dot and the remainder. -/
def revSplitDot : List Char → Option (List Char × List Char)
  | [] => none
  | c :: cs =>
    if c = '.' then some ([], cs)
    else (revSplitDot cs).map fun pr => (c :: pr.1, pr.2)

/-- Embedding of Rust's `Path::extension` on a file-name component: `none`
for `".."`, `none` when there is no `'.'` strictly after the first
character, otherwise the portion after the last `'.'`. All paths used by
the claims are single-component file names. -/
def extension (f : String) : Option String :=
  if f = ".." then none
  else
    match revSplitDot f.data.reverse with
    | none => none
    | some (e, r) => if r = [] then none else some (String.mk e.reverse)

/-- Embedding of `GraphResultsWriter::from_path` (graph.rs lines 125-135).
The byte-string patterns `b"csv"` / `b"png"` are exact, case-sensitive
matches; opening the csv file is modelled as always succeeding with a
fresh writer state (I/O failure abstracted away). -/
def GraphResultsWriter.from_path (path : String) : Except String GraphResultsWriter :=
  match extension path with
  | some ext =>
    if ext = "csv" then .ok (.CSV freshCsvWriter)
    else if ext = "png" then .error "PNG output not yet implemented"
    else .error ("Unsupported extension for --graph-results-path: ." ++ ext)
  | none => .error "Could not determine output file format from --graph-results-path"

/-- Columns contributed by one metric (graph.rs lines 145-163): sample
count, min, max, mean, then one column per quantile-spec entry, in spec
order, holding the histogram value at that fraction. -/
def metricColumns (quantiles : QuantileSpec) (hist : Histogram) : List String :=
  [toString hist.len, toString hist.min, toString hist.max, hist.mean]
    ++ quantiles.map fun q => toString (hist.value_at_quantile q.2)

/-- Comparator of `result_values.sort_by(|(k1, _), (k2, _)| k1.cmp(k2))`:
keys compared lexicographically (Rust compares UTF-8 bytes; byte order
equals code-point order). -/
def MetricLE (a b : String × Histogram) : Prop :=
  a.1.data ≤ b.1.data

instance : DecidableRel MetricLE :=
  fun a b => inferInstanceAs (Decidable (a.1.data ≤ b.1.data))

instance : IsTotal (String × Histogram) MetricLE :=
  ⟨fun a b => le_total a.1.data b.1.data⟩

instance : IsTrans (String × Histogram) MetricLE :=
  ⟨fun _ _ _ h1 h2 => le_trans h1 h2⟩

/-- Strict version of `MetricLE`. -/
def MetricLT (a b : String × Histogram) : Prop :=
  a.1.data < b.1.data

instance : IsAntisymm (String × Histogram) MetricLT :=
  ⟨fun _ _ h1 h2 => absurd h2 (lt_asymm h1)⟩

/-- Embedding of the sort on graph.rs line 142: Rust's stable `sort_by`
with the key comparator, modelled as (stable) insertion sort. -/
def sortMetrics (results : List (String × Histogram)) : List (String × Histogram) :=
  List.insertionSort MetricLE results

/-- Row built by `write_result` (graph.rs lines 141-163): the axis value,
then the per-metric column blocks in key-sorted order. -/
def rowFields (quantiles : QuantileSpec) (x_value : String)
    (results : List (String × Histogram)) : List String :=
  x_value :: (sortMetrics results).flatMap fun kd => metricColumns quantiles kd.2

/-- Embedding of `GraphResultsWriter::write_result` (graph.rs lines
138-169): build the row and hand it to `csv.write_record`; no flush. -/
def GraphResultsWriter.write_result (quantiles : QuantileSpec)
    (w : GraphResultsWriter) (x_value : String)
    (results : List (String × Histogram)) : GraphResultsWriter :=
  match w with
  | .CSV csv => .CSV (csv.write_record (rowFields quantiles x_value results))

/-- Iterated `write_result`, one call per sweep point, in call order. -/
def writeAll (quantiles : QuantileSpec) (w : GraphResultsWriter)
    (calls : List (String × List (String × Histogram))) : GraphResultsWriter :=
  calls.foldl (fun w c => w.write_result quantiles c.1 c.2) w

/-- Concrete two-entry quantile spec used by the spec's examples. -/
def QS2 : QuantileSpec := [("p50", 1/2), ("p99", 99/100)]

/-- Concrete histogram with 100 samples. -/
def histA : Histogram :=
  { len := 100, min := 1, max := 10, mean := "5.5", value_at_quantile := fun _ => 7 }

/-- Concrete second histogram. -/
def histB : Histogram :=
  { len := 3, min := 2, max := 9, mean := "4", value_at_quantile := fun _ => 8 }

/-- Metrics mapping with insertion order `"b"` before `"a"`. -/
def resBA : List (String × Histogram) := [("b", histB), ("a", histA)]

/-- The same mapping with insertion order `"a"` before `"b"`. -/
def resAB : List (String × Histogram) := [("a", histA), ("b", histB)]

/-- Concatenation of serialised rows, in order. -/
def concatRows : List String → String
  | [] => ""
  | r :: rs => r ++ concatRows rs

/-! Helper lemmas. -/

theorem splitCommaChars_ne_nil : ∀ cs : List Char, splitCommaChars cs ≠ []
  | [] => by simp [splitCommaChars]
  | c :: cs => by
    simp only [splitCommaChars]
    split
    · simp
    · split
      · simp
      · simp

theorem joinComma_splitCommaChars : ∀ cs : List Char, joinComma (splitCommaChars cs) = cs
  | [] => rfl
  | c :: cs => by
    have ih := joinComma_splitCommaChars cs
    by_cases hc : c = ','
    · subst hc
      rw [splitCommaChars, if_pos rfl]
      rcases h : splitCommaChars cs with _ | ⟨p, ps⟩
      · exact absurd h (splitCommaChars_ne_nil cs)
      · rw [h] at ih
        simpa [joinComma] using ih
    · rw [splitCommaChars, if_neg hc]
      rcases h : splitCommaChars cs with _ | ⟨p, ps⟩
      · exact absurd h (splitCommaChars_ne_nil cs)
      · rw [h] at ih
        cases ps
        · simpa [joinComma] using ih
        · simp only [joinComma, List.cons_append] at ih ⊢
          rw [ih]

theorem splitCommaChars_no_comma :
    ∀ cs : List Char, ∀ p ∈ splitCommaChars cs, ',' ∉ p
  | [] => by simp [splitCommaChars]
  | c :: cs => by
    have ih := splitCommaChars_no_comma cs
    by_cases hc : c = ','
    · subst hc
      rw [splitCommaChars, if_pos rfl]
      intro p hp
      rcases hp with _ | hp
      · simp
      · exact ih p (by assumption)
    · rw [splitCommaChars, if_neg hc]
      rcases h : splitCommaChars cs with _ | ⟨q, qs⟩
      · exact absurd h (splitCommaChars_ne_nil cs)
      · intro p hp
        rcases hp with _ | hp
        · intro hmem
          rcases hmem with _ | hmem
          · exact hc rfl
          · exact ih q (h ▸ List.mem_cons_self q qs) (by assumption)
        · exact ih p (h ▸ List.mem_cons_of_mem q (by assumption))

theorem sortMetrics_perm (l : List (String × Histogram)) :
    List.Perm (sortMetrics l) l :=
  List.perm_insertionSort MetricLE l

theorem sortMetrics_sorted (l : List (String × Histogram)) :
    List.Sorted MetricLE (sortMetrics l) :=
  List.sorted_insertionSort MetricLE l

theorem pairwise_lt_of_sorted_nodup {l : List (String × Histogram)}
    (hs : List.Sorted MetricLE l) (hnd : (l.map Prod.fst).Nodup) :
    List.Pairwise MetricLT l := by
  have hne : l.Pairwise fun a b : String × Histogram => a.1 ≠ b.1 :=
    (List.pairwise_map).mp hnd
  refine (List.Pairwise.and hs hne).imp ?_
  rintro a b ⟨hle, hneq⟩
  exact lt_of_le_of_ne hle fun hd => hneq (String.ext hd)

theorem sortMetrics_pairwise_lt {l : List (String × Histogram)}
    (hnd : (l.map Prod.fst).Nodup) :
    List.Pairwise MetricLT (sortMetrics l) := by
  refine pairwise_lt_of_sorted_nodup (sortMetrics_sorted l) ?_
  exact (((sortMetrics_perm l).map Prod.fst).nodup_iff).mpr hnd

theorem sortMetrics_eq_of_perm {l l' : List (String × Histogram)}
    (hnd : (l.map Prod.fst).Nodup) (hp : List.Perm l l') :
    sortMetrics l = sortMetrics l' := by
  have hnd' : (l'.map Prod.fst).Nodup := ((hp.map Prod.fst).nodup_iff).mp hnd
  refine List.eq_of_perm_of_sorted (r := MetricLT) ?_ ?_ ?_
  · exact (sortMetrics_perm l).trans (hp.trans (sortMetrics_perm l').symm)
  · exact sortMetrics_pairwise_lt hnd
  · exact sortMetrics_pairwise_lt hnd'

theorem length_metricColumns (qs : QuantileSpec) (h : Histogram) :
    (metricColumns qs h).length = 4 + qs.length := by
  simp [metricColumns]
  omega

theorem length_metric_blocks (qs : QuantileSpec) :
    ∀ l : List (String × Histogram),
      (l.flatMap fun kd => metricColumns qs kd.2).length = l.length * (4 + qs.length)
  | [] => by simp
  | kd :: l => by
    simp only [List.flatMap_cons, List.length_append, List.length_cons,
      length_metricColumns, length_metric_blocks qs l]
    ring

theorem totalOutput_write_record (w : CsvWriter) (fields : List String) :
    (w.write_record fields).totalOutput = w.totalOutput ++ serializeRecord fields := by
  by_cases hc : w.capacity ≤ w.buffer.length + (serializeRecord fields).length
  · simp [CsvWriter.write_record, CsvWriter.totalOutput, hc,
      String.append_empty, String.append_assoc]
  · simp [CsvWriter.write_record, CsvWriter.totalOutput, hc, String.append_assoc]

theorem output_write_result (qs : QuantileSpec) (w : GraphResultsWriter)
    (v : String) (results : List (String × Histogram)) :
    (w.write_result qs v results).output
      = w.output ++ serializeRecord (rowFields qs v results) := by
  cases w
  simp [GraphResultsWriter.write_result, GraphResultsWriter.output,
    totalOutput_write_record]

theorem from_path_ok {f : String} {w : GraphResultsWriter}
    (h : GraphResultsWriter.from_path f = .ok w) :
    w = .CSV freshCsvWriter := by
  unfold GraphResultsWriter.from_path at h
  split at h
  · split at h
    · exact (Except.ok.inj h).symm
    · split at h
      · exact absurd h (by simp)
      · exact absurd h (by simp)
  · exact absurd h (by simp)

/-! Claim theorems. -/

/-- C3: for every sweep config whose `x_axis` and `x_values` are present,
`GraphParams::runs` yields exactly `len(axis_values)` sweep points, in the
same order as `axis_values`, and every yielded point carries the config's
fixed `axis_name` and `axis_is_datagen_variable` flag unchanged. -/
theorem runs_yields_points_in_order (p : GraphParams) (ax : String)
    (vs : List String) (h1 : p.x_axis = some ax) (h2 : p.x_values = some vs) :
    ∃ rl : List GraphRun,
      p.runs = some rl
      ∧ rl = vs.map (fun v =>
          { x_axis := ax, x_value := v,
            x_axis_is_datagen_var := p.x_axis_is_datagen_var })
      ∧ rl.length = vs.length
      ∧ ∀ i (hi : i < vs.length),
          rl[i]? = some { x_axis := ax, x_value := vs[i],
                          x_axis_is_datagen_var := p.x_axis_is_datagen_var } := by
  refine ⟨_, ?_, rfl, by simp, ?_⟩
  · simp [GraphParams.runs, h1, h2]
  · intro i hi
    simp [List.getElem?_map, List.getElem?_eq_getElem hi]

/-- Witness for C3 at a concrete two-value sweep config. -/
theorem runs_yields_points_in_order_witness :
    ∃ rl : List GraphRun,
      GraphParams.runs
          { graph := true, x_axis := some "target-qps",
            x_values := some ["100", "500"], x_axis_is_datagen_var := false,
            graph_results_path := some "out.csv" }
        = some rl
      ∧ rl = (["100", "500"] : List String).map (fun v =>
          { x_axis := "target-qps", x_value := v, x_axis_is_datagen_var := false })
      ∧ rl.length = (["100", "500"] : List String).length
      ∧ ∀ i (hi : i < (["100", "500"] : List String).length),
          rl[i]? = some { x_axis := "target-qps", x_value := ["100", "500"][i],
                          x_axis_is_datagen_var := false } :=
  runs_yields_points_in_order _ "target-qps" ["100", "500"] rfl rfl

/-- C8: `GraphParams::runs` never consults the `graph` flag, succeeds with
the sweep points whenever `x_axis` and `x_values` are present (even when
`graph` is false), and panics (modelled as `none`) precisely when `x_axis`
or `x_values` is absent. -/
theorem runs_ignores_graph_flag (p : GraphParams) (b : Bool) :
    GraphParams.runs { p with graph := b } = p.runs
    ∧ (p.runs = none ↔ p.x_axis = none ∨ p.x_values = none) := by
  constructor
  · rfl
  · rcases hx : p.x_axis with _ | ax <;> rcases hv : p.x_values with _ | vs <;>
      simp [GraphParams.runs, hx, hv]

/-- C4: for a sweep point whose `x_axis_is_datagen_var` flag is false,
`GraphRun::as_args` returns the CLI-token variant holding exactly the
synthetic program name "benchmarks", the long flag `--` + axis name, and
the raw axis value; in particular axis "target-qps" with value "500"
yields ["benchmarks", "--target-qps", "500"]. -/
theorem as_args_cli_tokens (r : GraphRun) (h : r.x_axis_is_datagen_var = false) :
    r.as_args = ArgOverride.CliArgs ["benchmarks", "--" ++ r.x_axis, r.x_value]
    ∧ (GraphRun.mk "target-qps" "500" false).as_args
        = ArgOverride.CliArgs ["benchmarks", "--target-qps", "500"] := by
  constructor
  · simp [GraphRun.as_args, h]
  · decide

/-- Witness for C4 at the spec's concrete sweep point. -/
theorem as_args_cli_tokens_witness :
    (GraphRun.mk "target-qps" "500" false).as_args
      = ArgOverride.CliArgs ["benchmarks", "--" ++ "target-qps", "500"] :=
  (as_args_cli_tokens (GraphRun.mk "target-qps" "500" false) rfl).1

/-- C5: for a sweep point whose `x_axis_is_datagen_var` flag is true,
`GraphRun::as_args` returns the JSON-patch variant holding exactly the
single mapping axis name to axis value; in particular axis "row_count"
with value "1000" yields the patch row_count to "1000". Exactly one of the
two variants is produced, chosen solely by the flag. -/
theorem as_args_structured_patch (r : GraphRun) (h : r.x_axis_is_datagen_var = true) :
    r.as_args = ArgOverride.Json [(r.x_axis, r.x_value)]
    ∧ (GraphRun.mk "row_count" "1000" true).as_args
        = ArgOverride.Json [("row_count", "1000")]
    ∧ (∀ r' : GraphRun,
        (∃ o, r'.as_args = ArgOverride.Json o) ↔ r'.x_axis_is_datagen_var = true) := by
  refine ⟨by simp [GraphRun.as_args, h], by decide, ?_⟩
  intro r'
  rcases hf : r'.x_axis_is_datagen_var <;> simp [GraphRun.as_args, hf]

/-- Witness for C5 at the spec's concrete sweep point. -/
theorem as_args_structured_patch_witness :
    (GraphRun.mk "row_count" "1000" true).as_args
      = ArgOverride.Json [("row_count", "1000")] :=
  (as_args_structured_patch (GraphRun.mk "row_count" "1000" true) rfl).2.1

/-- C10: parsing the comma-separated axis-values string never fails (the
model is a total function) and yields exactly the comma-free pieces whose
comma-join is the input, preserving order and empty pieces; the empty
string parses to [""], and an enabled sweep over it yields exactly one
sweep point whose axis value is the empty string. -/
theorem from_str_splits_on_comma (s ax path : String) (g f : Bool) :
    joinComma ((CommaSeparatedString.from_str s).map String.data) = s.data
    ∧ (∀ piece ∈ CommaSeparatedString.from_str s, ',' ∉ piece.data)
    ∧ CommaSeparatedString.from_str "" = [""]
    ∧ GraphParams.runs
        { graph := g, x_axis := some ax,
          x_values := some (CommaSeparatedString.from_str ""),
          x_axis_is_datagen_var := f, graph_results_path := some path }
      = some [{ x_axis := ax, x_value := "", x_axis_is_datagen_var := f }] := by
  refine ⟨?_, ?_, by decide, rfl⟩
  · simp only [CommaSeparatedString.from_str, List.map_map]
    have hcomp : (String.data ∘ String.mk) = id := rfl
    rw [hcomp, List.map_id, joinComma_splitCommaChars]
  · intro piece hmem
    simp only [CommaSeparatedString.from_str, List.mem_map] at hmem
    rcases hmem with ⟨p, hp, rfl⟩
    exact splitCommaChars_no_comma s.data p hp

/-- C2: opening a results writer dispatches exactly on the output path's
file extension: extension csv yields a CSV writer; png fails with the
"not yet implemented" error; any other extension fails with the
"unsupported extension" error naming the extension; no extension fails
with the "could not determine format" error — all at open time, before
any row is written. The spec's four concrete paths behave accordingly. -/
theorem from_path_dispatch (p e : String) :
    (extension p = some "csv" →
      GraphResultsWriter.from_path p = .ok (.CSV freshCsvWriter))
    ∧ (extension p = some "png" →
      GraphResultsWriter.from_path p = .error "PNG output not yet implemented")
    ∧ (extension p = some e → e ≠ "csv" → e ≠ "png" →
      GraphResultsWriter.from_path p
        = .error ("Unsupported extension for --graph-results-path: ." ++ e))
    ∧ (extension p = none →
      GraphResultsWriter.from_path p
        = .error "Could not determine output file format from --graph-results-path")
    ∧ GraphResultsWriter.from_path "out.csv" = .ok (.CSV freshCsvWriter)
    ∧ GraphResultsWriter.from_path "out.png"
        = .error "PNG output not yet implemented"
    ∧ GraphResultsWriter.from_path "out.dat"
        = .error "Unsupported extension for --graph-results-path: .dat"
    ∧ GraphResultsWriter.from_path "out"
        = .error "Could not determine output file format from --graph-results-path" := by
  refine ⟨?_, ?_, ?_, ?_, by rfl, by rfl, by rfl, by rfl⟩
  · intro h
    unfold GraphResultsWriter.from_path
    rw [h]
    rfl
  · intro h
    unfold GraphResultsWriter.from_path
    rw [h]
    rfl
  · intro h h1 h2
    unfold GraphResultsWriter.from_path
    rw [h]
    simp only [if_neg h1, if_neg h2]
  · intro h
    unfold GraphResultsWriter.from_path
    rw [h]

/-- Witness for C2: a path with the unhandled extension toml is rejected
at open time with the error naming that extension. -/
theorem from_path_dispatch_witness :
    GraphResultsWriter.from_path "x.toml"
      = .error ("Unsupported extension for --graph-results-path: ." ++ "toml") :=
  (from_path_dispatch "x.toml" "toml").2.2.1 rfl (by decide) (by decide)

/-- C9: the format dispatch in `from_path` matches the extension
byte-for-byte and case-sensitively: a path whose extension is a
non-lowercase variant of csv or png is rejected with the "unsupported
extension" error (naming the extension verbatim) rather than opening a CSV
writer or returning the PNG error; in particular "out.CSV". -/
theorem from_path_case_sensitive (p e : String)
    (h1 : extension p = some e)
    (h2 : e.data.map Char.toLower = "csv".data ∨ e.data.map Char.toLower = "png".data)
    (h3 : e ≠ "csv") (h4 : e ≠ "png") :
    GraphResultsWriter.from_path p
      = .error ("Unsupported extension for --graph-results-path: ." ++ e)
    ∧ GraphResultsWriter.from_path "out.CSV"
      = .error "Unsupported extension for --graph-results-path: .CSV" := by
  constructor
  · unfold GraphResultsWriter.from_path
    rw [h1]
    simp only [if_neg h3, if_neg h4]
  · rfl

/-- Witness for C9 at the concrete path "out.CSV". -/
theorem from_path_case_sensitive_witness :
    GraphResultsWriter.from_path "out.CSV"
      = .error ("Unsupported extension for --graph-results-path: ." ++ "CSV")
    ∧ GraphResultsWriter.from_path "out.CSV"
      = .error "Unsupported extension for --graph-results-path: .CSV" :=
  from_path_case_sensitive "out.CSV" "CSV" rfl (Or.inl (by decide))
    (by decide) (by decide)

/-- C1: the row emitted by `write_result` is exactly the unmodified axis
value followed by one block per metric taken in ascending lexicographic
key order — regardless of the mapping's iteration (insertion) order —
where each block is the four scalar columns (count, min, max, mean)
immediately followed by one column per quantile-spec entry, in spec order,
holding the value at that fraction. -/
theorem write_result_row_layout (qs : QuantileSpec) (v : String)
    (results results' : List (String × Histogram))
    (hnd : (results.map Prod.fst).Nodup) (hperm : List.Perm results results') :
    rowFields qs v results
      = v :: (sortMetrics results).flatMap (fun kd => metricColumns qs kd.2)
    ∧ List.Perm (sortMetrics results) results
    ∧ List.Pairwise MetricLT (sortMetrics results)
    ∧ (∀ kd ∈ sortMetrics results,
        metricColumns qs kd.2
          = [toString kd.2.len, toString kd.2.min, toString kd.2.max, kd.2.mean]
            ++ qs.map fun q => toString (kd.2.value_at_quantile q.2))
    ∧ rowFields qs v results' = rowFields qs v results := by
  refine ⟨rfl, sortMetrics_perm results, sortMetrics_pairwise_lt hnd,
    fun kd _ => rfl, ?_⟩
  unfold rowFields
  rw [sortMetrics_eq_of_perm hnd hperm]

/-- Witness for C1: metrics inserted as "b" then "a"; the row is
insertion-order independent and places "a"'s block (histA: 100 samples)
before "b"'s. -/
theorem write_result_row_layout_witness :
    (resBA.map Prod.fst).Nodup
    ∧ rowFields QS2 "x" resAB = rowFields QS2 "x" resBA
    ∧ rowFields QS2 "x" resBA
        = ["x", "100", "1", "10", "5.5", "7", "7", "3", "2", "9", "4", "8", "8"] :=
  ⟨by decide,
    (write_result_row_layout QS2 "x" resBA resAB (by decide)
      (List.Perm.swap ("a", histA) ("b", histB) [])).2.2.2.2,
    by decide⟩

/-- C6: a data row for m metrics and a k-entry quantile spec has exactly
1 + m * (4 + k) fields; opening the writer emits nothing at all (no header
row), and a `write_result` call emits exactly the one data row; with one
metric and a two-entry quantile spec the row has exactly 7 fields. -/
theorem write_result_field_count (qs : QuantileSpec) (v : String)
    (results : List (String × Histogram)) (f : String) (w : GraphResultsWriter)
    (hopen : GraphResultsWriter.from_path f = .ok w) :
    (rowFields qs v results).length = 1 + results.length * (4 + qs.length)
    ∧ w.output = ""
    ∧ (w.write_result qs v results).output = serializeRecord (rowFields qs v results)
    ∧ (qs.length = 2 → results.length = 1 → (rowFields qs v results).length = 7) := by
  have hw : w = .CSV freshCsvWriter := from_path_ok hopen
  subst hw
  have hlen : (rowFields qs v results).length = 1 + results.length * (4 + qs.length) := by
    unfold rowFields
    rw [List.length_cons, length_metric_blocks qs (sortMetrics results),
      (sortMetrics_perm results).length_eq]
    omega
  refine ⟨hlen, rfl, ?_, ?_⟩
  · rw [output_write_result]
    rfl
  · intro hq hm
    rw [hlen, hq, hm]

/-- Witness for C6: a writer opened for "out.csv", one metric, the
two-entry quantile spec of the spec's example; the row has 7 fields. -/
theorem write_result_field_count_witness :
    (rowFields QS2 "500" [("m", histA)]).length = 1 + 1 * (4 + 2)
    ∧ (GraphResultsWriter.CSV freshCsvWriter).output = ""
    ∧ ((GraphResultsWriter.CSV freshCsvWriter).write_result QS2 "500" [("m", histA)]).output
        = serializeRecord (rowFields QS2 "500" [("m", histA)])
    ∧ (QS2.length = 2 → ([("m", histA)] : List (String × Histogram)).length = 1 →
        (rowFields QS2 "500" [("m", histA)]).length = 7) := by
  have h := write_result_field_count QS2 "500" [("m", histA)] "out.csv"
    (.CSV freshCsvWriter) rfl
  simpa using h

/-- C7 (amended): successive `write_result` calls on one open CSV writer
hand their rows to the writer in call order, each as a single
`write_record` of the full serialised row, so the writer's cumulative
output is the concatenation of the rows in sweep order; the rows are not,
however, flushed to the underlying file before each call returns. -/
theorem write_result_appends_in_order (qs : QuantileSpec)
    (w : GraphResultsWriter)
    (calls : List (String × List (String × Histogram))) :
    (writeAll qs w calls).output
      = w.output ++ concatRows (calls.map fun c => serializeRecord (rowFields qs c.1 c.2)) := by
  induction calls generalizing w with
  | nil => simp [writeAll, concatRows, String.append_empty]
  | cons c cs ih =>
    simp only [writeAll, List.foldl_cons, List.map_cons, concatRows]
    rw [show ∀ w', List.foldl (fun w c => GraphResultsWriter.write_result qs w c.1 c.2) w' cs
        = writeAll qs w' cs from fun _ => rfl]
    rw [ih, output_write_result, String.append_assoc]

/-- Counterexample for C7: after a single `write_result` call on a freshly
opened CSV writer the full row has been handed to the writer (it is the
writer's entire cumulative output), yet the underlying file is still
empty — the row was not flushed before the call returned. -/
theorem write_result_not_flushed :
    ((GraphResultsWriter.CSV freshCsvWriter).write_result QS2 "500" [("m", histA)]).fileContents
      = ""
    ∧ ((GraphResultsWriter.CSV freshCsvWriter).write_result QS2 "500" [("m", histA)]).output
      = "500,100,1,10,5.5,7,7\n"
    ∧ ("500,100,1,10,5.5,7,7\n" : String) ≠ "" := by
  refine ⟨by decide, by decide, by decide⟩
